import Mathlib

/-!
Verification of the gamification core (reputation/point engine) of the
Q&A platform, together with two frontend behaviours (API URL guard and
the registration form), against the repository's documentation and code.

The engine itself (Point Ledger, User Aggregate Store, Rank Calculator,
Achievement Evaluator) is specified in the documentation but its backend
implementation is not part of the repository snapshot, so those
components are modelled from the specification text; the point policy
table and the rank tier table are taken from `backend/README.md`.
The frontend definitions (`API`, `getApiUrl`, the registration submit
handler, the admin bot-creation payload) are embedded from
`frontend/src/config.js` and the App.js source.
-/

namespace Gamify

/-- The closed enumeration of point-affecting event types
(spec section 3, data model of a Point Event). -/
inductive EventType where
  | question_created
  | answer_validated
  | answer_accepted
  | upvote_received
  | downvote_received
  | daily_login
  | profile_completed
  | admin_adjustment
deriving DecidableEq, Repr

/-- PC-point delta of each non-admin event type, from the policy table in
`backend/README.md` (Pontos PC). -/
def policyPC : EventType → Int
  | .question_created => 5
  | .answer_validated => 10
  | .answer_accepted => 25
  | .upvote_received => 3
  | .downvote_received => -1
  | .daily_login => 1
  | .profile_completed => 10
  | .admin_adjustment => 0

/-- PCon-point delta of each non-admin event type, from the policy table in
`backend/README.md` (Pontos PCon). -/
def policyPCon : EventType → Int
  | .question_created => 2
  | .answer_validated => 5
  | .answer_accepted => 15
  | .upvote_received => 1
  | .downvote_received => 0
  | .daily_login => 1
  | .profile_completed => 5
  | .admin_adjustment => 0

/-- An immutable Point Event as stored in the ledger (spec section 3). -/
structure PointEvent where
  event_id : Nat
  user_id : Nat
  event_type : EventType
  pc_delta : Int
  pcon_delta : Int
  source_entity_id : Nat
deriving DecidableEq, Repr

/-- A request to record an event, as received from a caller: it may carry
caller-supplied deltas (honoured only for `admin_adjustment`) and an
authorization flag standing for the admin authorization context. -/
structure RecordRequest where
  event_id : Nat
  user_id : Nat
  event_type : EventType
  pc_delta : Int
  pcon_delta : Int
  source_entity_id : Nat
  authorized : Bool
deriving DecidableEq, Repr

/-- A user's aggregate: current totals plus the optimistic-concurrency
version counter (spec section 3). The rank is derived on read, never
stored by the engine. -/
structure Aggregate where
  pc_points : Int
  pcon_points : Int
  version : Nat
deriving DecidableEq, Repr

/-- The zero aggregate implicitly created by a user's first event
(spec section 7, UnknownUser). -/
def Aggregate.zero : Aggregate := ⟨0, 0, 0⟩

/-- Modelled from the spec: the whole engine state, the append-only
Point Ledger plus the per-user Aggregate Store (an association list
keyed by `user_id`). -/
structure EngineState where
  ledger : List PointEvent
  aggs : List (Nat × Aggregate)
deriving DecidableEq, Repr

/-- The empty engine state. -/
def EngineState.empty : EngineState := ⟨[], []⟩

/-- Look up a user's aggregate; a user with no aggregate yet reads as the
zero aggregate (spec section 7: first event implicitly creates it at zero). -/
def getAgg (aggs : List (Nat × Aggregate)) (u : Nat) : Aggregate :=
  match aggs.find? (fun p => p.1 == u) with
  | some p => p.2
  | none => Aggregate.zero

/-- Store a user's aggregate, replacing any existing entry for that user. -/
def setAgg (aggs : List (Nat × Aggregate)) (u : Nat) (a : Aggregate) :
    List (Nat × Aggregate) :=
  match aggs with
  | [] => [(u, a)]
  | p :: rest => if p.1 == u then (u, a) :: rest else p :: setAgg rest u a

/-- Modelled from the spec: `apply(user_id, pc_delta, pcon_delta)` of the
User Aggregate Store adds the deltas to the stored totals, clamped so the
totals never go below zero, and increments `version` (spec section 4.2). -/
def applyDeltas (a : Aggregate) (dpc dpcon : Int) : Aggregate :=
  ⟨max (a.pc_points + dpc) 0, max (a.pcon_points + dpcon) 0, a.version + 1⟩

/-- Modelled from the spec: deltas of all non-admin event types are
computed server-side from the Point Policy Table; only `admin_adjustment`
carries the caller-supplied deltas (spec sections 3 and 4.1). -/
def computeDeltas (r : RecordRequest) : Int × Int :=
  if r.event_type = .admin_adjustment then (r.pc_delta, r.pcon_delta)
  else (policyPC r.event_type, policyPCon r.event_type)

/-- Result of `record`: a duplicate is a no-op returning the previously
stored event; an `admin_adjustment` without authorization is rejected. -/
inductive RecordResult where
  | duplicate (e : PointEvent)
  | recorded (e : PointEvent)
  | unauthorized
deriving DecidableEq, Repr

/-- Modelled from the spec: `record(event)` of the Point Ledger, whose
backend implementation is missing from the repository snapshot.  If the
`event_id` already exists it returns the previously stored event and
performs no further work; an unauthorized `admin_adjustment` is rejected;
otherwise it computes the deltas, appends the event to the ledger and
triggers the aggregate update for `user_id` (spec section 4.1). -/
def record (s : EngineState) (r : RecordRequest) : RecordResult × EngineState :=
  match s.ledger.find? (fun e => e.event_id == r.event_id) with
  | some e => (.duplicate e, s)
  | none =>
    if r.event_type == .admin_adjustment && !r.authorized then
      (.unauthorized, s)
    else
      let d := computeDeltas r
      let e : PointEvent :=
        ⟨r.event_id, r.user_id, r.event_type, d.1, d.2, r.source_entity_id⟩
      let a := getAgg s.aggs r.user_id
      (.recorded e,
       ⟨s.ledger ++ [e], setAgg s.aggs r.user_id (applyDeltas a d.1 d.2)⟩)

/-- Record a sequence of requests in order. -/
def recordAll (s : EngineState) (rs : List RecordRequest) : EngineState :=
  rs.foldl (fun st r => (record st r).2) s

theorem find?_eq_none_of_recorded {s : EngineState} {r : RecordRequest}
    {e : PointEvent} (h : (record s r).1 = .recorded e) :
    s.ledger.find? (fun x => x.event_id == r.event_id) = none := by
  unfold record at h
  cases hf : s.ledger.find? (fun x => x.event_id == r.event_id) with
  | none => rfl
  | some e0 => rw [hf] at h; simp at h

theorem recorded_event_eq {s : EngineState} {r : RecordRequest}
    {e : PointEvent} (h : (record s r).1 = .recorded e) :
    e = ⟨r.event_id, r.user_id, r.event_type,
         (computeDeltas r).1, (computeDeltas r).2, r.source_entity_id⟩ := by
  unfold record at h
  cases hf : s.ledger.find? (fun x => x.event_id == r.event_id) with
  | none =>
    rw [hf] at h
    by_cases hb : (r.event_type == .admin_adjustment && !r.authorized) = true
    · simp [hb] at h
    · rw [Bool.not_eq_true] at hb
      simp [hb] at h
      exact h.symm
  | some e0 => rw [hf] at h; simp at h

theorem recorded_state_eq {s : EngineState} {r : RecordRequest}
    {e : PointEvent} (h : (record s r).1 = .recorded e) :
    (record s r).2 =
      ⟨s.ledger ++ [e],
       setAgg s.aggs r.user_id
         (applyDeltas (getAgg s.aggs r.user_id)
           (computeDeltas r).1 (computeDeltas r).2)⟩ := by
  have hf := find?_eq_none_of_recorded h
  have he := recorded_event_eq h
  unfold record at h ⊢
  rw [hf] at h ⊢
  by_cases hb : (r.event_type == .admin_adjustment && !r.authorized) = true
  · simp [hb] at h
  · rw [Bool.not_eq_true] at hb
    simp only [hb, Bool.false_eq_true, if_false]
    subst he
    rfl

/-- C1.  Recording the same `event_id` twice is idempotent: once a request
has been recorded, recording any request bearing the same `event_id` again
returns the previously stored event and leaves the engine state (ledger and
every aggregate) unchanged. -/
theorem record_idempotent (s : EngineState) (r r2 : RecordRequest)
    (e : PointEvent) (h : (record s r).1 = .recorded e)
    (hid : r2.event_id = r.event_id) :
    record (record s r).2 r2 = (.duplicate e, (record s r).2) := by
  have hf := find?_eq_none_of_recorded h
  have he := recorded_event_eq h
  have hs := recorded_state_eq h
  rw [hs]
  unfold record
  have hfind : (s.ledger ++ [e]).find? (fun x => x.event_id == r2.event_id)
      = some e := by
    rw [List.find?_append]
    have h1 : s.ledger.find? (fun x => x.event_id == r2.event_id) = none := by
      rw [hid]; exact hf
    rw [h1]
    simp [List.find?, he, hid]
  rw [hfind]

/-- Witness for C1 at a concrete input: recording a `question_created`
event on the empty state and then re-submitting the same `event_id`
returns the stored event and changes nothing. -/
theorem record_idempotent_witness :
    record
      (record EngineState.empty
        ⟨7, 1, .question_created, 0, 0, 42, false⟩).2
      ⟨7, 1, .question_created, 0, 0, 42, false⟩ =
    (.duplicate ⟨7, 1, .question_created, 5, 2, 42⟩,
     (record EngineState.empty
        ⟨7, 1, .question_created, 0, 0, 42, false⟩).2) :=
  record_idempotent EngineState.empty
    ⟨7, 1, .question_created, 0, 0, 42, false⟩
    ⟨7, 1, .question_created, 0, 0, 42, false⟩
    ⟨7, 1, .question_created, 5, 2, 42⟩ (by decide) rfl

theorem getAgg_setAgg_self (aggs : List (Nat × Aggregate)) (u : Nat)
    (a : Aggregate) : getAgg (setAgg aggs u a) u = a := by
  induction aggs with
  | nil => simp [setAgg, getAgg, List.find?]
  | cons p rest ih =>
    by_cases hp : p.1 = u
    · simp [setAgg, hp, getAgg, List.find?]
    · have hpb : (p.1 == u) = false := by simp [hp]
      simp only [setAgg, hpb, Bool.false_eq_true, if_false]
      simp only [getAgg, List.find?, hpb]
      exact ih

theorem find?_append_none {α : Type} (p : α → Bool) (l1 l2 : List α)
    (h : l1.find? p = none) : (l1 ++ l2).find? p = l2.find? p := by
  rw [List.find?_append, h, Option.none_or]

/-- Left fold of a delta sequence with per-step clamping at zero, the way
the Aggregate Store's `apply` accumulates totals. -/
def foldClamp (init : Int) (ds : List Int) : Int :=
  ds.foldl (fun a d => max (a + d) 0) init

theorem conservation_core (u : Nat) (rs : List RecordRequest) :
    ∀ s : EngineState,
    (∀ r ∈ rs, r.user_id = u) →
    (∀ r ∈ rs, s.ledger.find? (fun e => e.event_id == r.event_id) = none) →
    (rs.map (fun r => r.event_id)).Nodup →
    (∀ r ∈ rs, (r.event_type == .admin_adjustment && !r.authorized) = false) →
    (getAgg (recordAll s rs).aggs u).pc_points
        = foldClamp (getAgg s.aggs u).pc_points
            (rs.map (fun r => (computeDeltas r).1))
    ∧ (getAgg (recordAll s rs).aggs u).pcon_points
        = foldClamp (getAgg s.aggs u).pcon_points
            (rs.map (fun r => (computeDeltas r).2)) := by
  induction rs with
  | nil => intro s _ _ _ _; exact ⟨rfl, rfl⟩
  | cons r rs ih =>
    intro s hu hfresh hnodup hok
    have hres : (record s r).1
        = .recorded ⟨r.event_id, r.user_id, r.event_type,
            (computeDeltas r).1, (computeDeltas r).2, r.source_entity_id⟩ := by
      unfold record
      rw [hfresh r (List.mem_cons_self r rs)]
      simp [hok r (List.mem_cons_self r rs)]
    have hs1 := recorded_state_eq hres
    have hstep : recordAll s (r :: rs) = recordAll ((record s r).2) rs := rfl
    have hid : ∀ r2 ∈ rs, r2.event_id ≠ r.event_id := by
      intro r2 hr2
      have hnotin := (List.nodup_cons.mp hnodup).1
      intro hcontra
      have hmem : r2.event_id ∈ rs.map (fun x => x.event_id) :=
        List.mem_map_of_mem _ hr2
      rw [hcontra] at hmem
      exact hnotin hmem
    have hfresh1 : ∀ r2 ∈ rs,
        ((record s r).2).ledger.find? (fun e => e.event_id == r2.event_id)
          = none := by
      intro r2 hr2
      rw [hs1]
      rw [find?_append_none _ _ _ (hfresh r2 (List.mem_cons_of_mem r hr2))]
      have hne := hid r2 hr2
      have hb : (r.event_id == r2.event_id) = false := by
        simp
        omega
      simp [List.find?, hb]
    have ihs := ih ((record s r).2)
      (fun r2 hr2 => hu r2 (List.mem_cons_of_mem r hr2))
      hfresh1
      (List.nodup_cons.mp hnodup).2
      (fun r2 hr2 => hok r2 (List.mem_cons_of_mem r hr2))
    have hagg1 : getAgg ((record s r).2).aggs u
        = applyDeltas (getAgg s.aggs u) (computeDeltas r).1
            (computeDeltas r).2 := by
      rw [hs1]
      have hru : r.user_id = u := hu r (List.mem_cons_self r rs)
      rw [hru] at *
      exact getAgg_setAgg_self s.aggs u _
    rw [hstep]
    constructor
    · rw [ihs.1, hagg1]
      simp [foldClamp, applyDeltas, List.foldl]
    · rw [ihs.2, hagg1]
      simp [foldClamp, applyDeltas, List.foldl]

/-- A `downvote_received` request followed by an `upvote_received` request
for the same user, with distinct event ids. -/
def cexDown : RecordRequest := ⟨1, 0, .downvote_received, 0, 0, 0, false⟩

/-- The second request of the clamping counterexample. -/
def cexUp : RecordRequest := ⟨2, 0, .upvote_received, 0, 0, 0, false⟩

/-- Counterexample to C2 as stated.  Recording a downvote (-1 PC) and then
an upvote (+3 PC) for a user starting at zero leaves `pc_points = 3`,
because the Aggregate Store clamps the running total at zero after every
apply; but the sum of the recorded `pc_delta` values clamped at zero is
`max (-1 + 3) 0 = 2`. -/
theorem conservation_counterexample :
    (getAgg (recordAll EngineState.empty [cexDown, cexUp]).aggs 0).pc_points ≠
      max ((((recordAll EngineState.empty [cexDown, cexUp]).ledger.filter
              (fun e => e.user_id == 0)).map (fun e => e.pc_delta)).sum) 0 := by
  decide

/-- C2 (amended).  For any sequence of point events with pairwise-distinct
fresh `event_id`s recorded for a user (none an unauthorized admin
adjustment), the resulting `pc_points` equals the left fold of their
`pc_delta` values with the running total clamped at zero after each step
(this coincides with the clamped sum whenever no intermediate total dips
below zero), and likewise for `pcon_points`. -/
theorem conservation (u : Nat) (rs : List RecordRequest) (s : EngineState)
    (hu : ∀ r ∈ rs, r.user_id = u)
    (hfresh : ∀ r ∈ rs,
      s.ledger.find? (fun e => e.event_id == r.event_id) = none)
    (hnodup : (rs.map (fun r => r.event_id)).Nodup)
    (hok : ∀ r ∈ rs,
      (r.event_type == .admin_adjustment && !r.authorized) = false) :
    (getAgg (recordAll s rs).aggs u).pc_points
        = foldClamp (getAgg s.aggs u).pc_points
            (rs.map (fun r => (computeDeltas r).1))
    ∧ (getAgg (recordAll s rs).aggs u).pcon_points
        = foldClamp (getAgg s.aggs u).pcon_points
            (rs.map (fun r => (computeDeltas r).2)) :=
  conservation_core u rs s hu hfresh hnodup hok

/-- Witness for C2 (amended) at the concrete downvote-then-upvote input. -/
theorem conservation_witness :
    (getAgg (recordAll EngineState.empty [cexDown, cexUp]).aggs 0).pc_points
        = foldClamp (getAgg EngineState.empty.aggs 0).pc_points
            ([cexDown, cexUp].map (fun r => (computeDeltas r).1))
    ∧ (getAgg (recordAll EngineState.empty [cexDown, cexUp]).aggs 0).pcon_points
        = foldClamp (getAgg EngineState.empty.aggs 0).pcon_points
            ([cexDown, cexUp].map (fun r => (computeDeltas r).2)) :=
  conservation 0 [cexDown, cexUp] EngineState.empty
    (by decide) (by decide) (by decide) (by decide)

/-- The rank tier table from `backend/README.md` (Sistema de Ranks):
name, PC threshold, PCon threshold, in ascending order. -/
def rankTable : List (String × Int × Int) :=
  [("Iniciante", 0, 0), ("Colaborador", 50, 25), ("Especialista", 150, 75),
   ("Veterano", 300, 150), ("Mestre", 600, 300), ("Lenda", 1200, 600)]

/-- Modelled from the spec: the Rank Calculator is a pure function over
the totals returning the highest tier of the ordered table for which both
`pc_points >= pc_threshold` and `pcon_points >= pcon_threshold` hold
(spec section 4.3); folding over the ascending table and keeping the last
satisfied tier realises exactly that. -/
def calcRank (pc pcon : Int) : String :=
  rankTable.foldl
    (fun acc t => if t.2.1 ≤ pc ∧ t.2.2 ≤ pcon then t.1 else acc)
    "Iniciante"

/-- C3.  For every pair of non-negative totals, the Rank Calculator
returns the name of the highest tier in the table whose PC and PCon
thresholds are both met: the returned tier's thresholds hold, and every
tier whose thresholds hold sits at or below it in the table. -/
theorem calcRank_highest (pc pcon : Int) (hpc : 0 ≤ pc) (hpcon : 0 ≤ pcon) :
    ∃ i : Fin rankTable.length,
      calcRank pc pcon = (rankTable.get i).1 ∧
      ((rankTable.get i).2.1 ≤ pc ∧ (rankTable.get i).2.2 ≤ pcon) ∧
      ∀ j : Fin rankTable.length,
        ((rankTable.get j).2.1 ≤ pc ∧ (rankTable.get j).2.2 ≤ pcon) →
          j ≤ i := by
  by_cases cLen : (1200 : Int) ≤ pc ∧ (600 : Int) ≤ pcon
  · have hcr : calcRank pc pcon = "Lenda" := by
      simp [calcRank, rankTable, cLen]
    refine ⟨⟨5, by decide⟩, by rw [hcr]; decide, ⟨cLen.1, cLen.2⟩, ?_⟩
    intro j hj
    fin_cases j <;> decide
  by_cases cMes : (600 : Int) ≤ pc ∧ (300 : Int) ≤ pcon
  · have hcr : calcRank pc pcon = "Mestre" := by
      simp [calcRank, rankTable, cLen, cMes]
    refine ⟨⟨4, by decide⟩, by rw [hcr]; decide, ⟨cMes.1, cMes.2⟩, ?_⟩
    intro j hj
    fin_cases j <;> first
      | decide
      | exact absurd hj cLen
  by_cases cVet : (300 : Int) ≤ pc ∧ (150 : Int) ≤ pcon
  · have hcr : calcRank pc pcon = "Veterano" := by
      simp [calcRank, rankTable, cLen, cMes, cVet]
    refine ⟨⟨3, by decide⟩, by rw [hcr]; decide, ⟨cVet.1, cVet.2⟩, ?_⟩
    intro j hj
    fin_cases j <;> first
      | decide
      | exact absurd hj cLen
      | exact absurd hj cMes
  by_cases cEsp : (150 : Int) ≤ pc ∧ (75 : Int) ≤ pcon
  · have hcr : calcRank pc pcon = "Especialista" := by
      simp [calcRank, rankTable, cLen, cMes, cVet, cEsp]
    refine ⟨⟨2, by decide⟩, by rw [hcr]; decide, ⟨cEsp.1, cEsp.2⟩, ?_⟩
    intro j hj
    fin_cases j <;> first
      | decide
      | exact absurd hj cLen
      | exact absurd hj cMes
      | exact absurd hj cVet
  by_cases cCol : (50 : Int) ≤ pc ∧ (25 : Int) ≤ pcon
  · have hcr : calcRank pc pcon = "Colaborador" := by
      simp [calcRank, rankTable, cLen, cMes, cVet, cEsp, cCol]
    refine ⟨⟨1, by decide⟩, by rw [hcr]; decide, ⟨cCol.1, cCol.2⟩, ?_⟩
    intro j hj
    fin_cases j <;> first
      | decide
      | exact absurd hj cLen
      | exact absurd hj cMes
      | exact absurd hj cVet
      | exact absurd hj cEsp
  · have hcr : calcRank pc pcon = "Iniciante" := by
      simp [calcRank, rankTable, cLen, cMes, cVet, cEsp, cCol]
    refine ⟨⟨0, by decide⟩, by rw [hcr]; decide, ⟨hpc, hpcon⟩, ?_⟩
    intro j hj
    fin_cases j <;> first
      | decide
      | exact absurd hj cLen
      | exact absurd hj cMes
      | exact absurd hj cVet
      | exact absurd hj cEsp
      | exact absurd hj cCol

/-- Witness for C3 at the concrete totals (150, 75), which sit exactly on
the Especialista thresholds. -/
theorem calcRank_highest_witness :
    ∃ i : Fin rankTable.length,
      calcRank 150 75 = (rankTable.get i).1 ∧
      ((rankTable.get i).2.1 ≤ (150 : Int)
        ∧ (rankTable.get i).2.2 ≤ (75 : Int)) ∧
      ∀ j : Fin rankTable.length,
        ((rankTable.get j).2.1 ≤ (150 : Int)
          ∧ (rankTable.get j).2.2 ≤ (75 : Int)) → j ≤ i :=
  calcRank_highest 150 75 (by decide) (by decide)

/-- C4 (Scenario A).  A user starting from the zero aggregate who records
one `question_created` event ends with totals (5, 2), and the rank derived
from those totals is still "Iniciante". -/
theorem scenarioA_question_created :
    (getAgg (record EngineState.empty
        ⟨1, 10, .question_created, 0, 0, 0, false⟩).2.aggs 10).pc_points = 5
    ∧ (getAgg (record EngineState.empty
        ⟨1, 10, .question_created, 0, 0, 0, false⟩).2.aggs 10).pcon_points = 2
    ∧ calcRank 5 2 = "Iniciante" := by
  decide

/-- C5.  Whenever `record` stores an event: for every non-admin event type
the stored `pc_delta`/`pcon_delta` come from the Point Policy Table,
whatever deltas the caller supplied; an `admin_adjustment` event carries
the caller-supplied deltas and can only have been recorded with the
authorization context present. -/
theorem deltas_server_side (s : EngineState) (r : RecordRequest)
    (e : PointEvent) (h : (record s r).1 = .recorded e) :
    (r.event_type ≠ .admin_adjustment →
      e.pc_delta = policyPC r.event_type
        ∧ e.pcon_delta = policyPCon r.event_type)
    ∧ (r.event_type = .admin_adjustment →
      r.authorized = true
        ∧ e.pc_delta = r.pc_delta ∧ e.pcon_delta = r.pcon_delta) := by
  have he := recorded_event_eq h
  constructor
  · intro hne
    rw [he]
    simp [computeDeltas, hne]
  · intro hadm
    refine ⟨?_, ?_, ?_⟩
    · unfold record at h
      cases hf : s.ledger.find? (fun x => x.event_id == r.event_id) with
      | some e0 => rw [hf] at h; simp at h
      | none =>
        rw [hf] at h
        by_cases hb : (r.event_type == .admin_adjustment && !r.authorized)
            = true
        · simp [hb] at h
        · rcases Bool.and_eq_false_iff.mp (Bool.not_eq_true _ ▸ hb)
            with hty | hau
          · exact absurd hadm (by simpa using hty)
          · simpa using hau
    · rw [he]; simp [computeDeltas, hadm]
    · rw [he]; simp [computeDeltas, hadm]

/-- Witness for C5: an `upvote_received` request carrying bogus caller
deltas (99, 99) is stored with the policy deltas (3, 1). -/
theorem deltas_server_side_witness :
    ((⟨1, 0, .upvote_received, 99, 99, 0, false⟩ :
        RecordRequest).event_type ≠ .admin_adjustment →
      (⟨1, 0, .upvote_received, 3, 1, 0⟩ : PointEvent).pc_delta
          = policyPC (⟨1, 0, .upvote_received, 99, 99, 0, false⟩ :
              RecordRequest).event_type
        ∧ (⟨1, 0, .upvote_received, 3, 1, 0⟩ : PointEvent).pcon_delta
          = policyPCon (⟨1, 0, .upvote_received, 99, 99, 0, false⟩ :
              RecordRequest).event_type)
    ∧ ((⟨1, 0, .upvote_received, 99, 99, 0, false⟩ :
        RecordRequest).event_type = .admin_adjustment →
      (⟨1, 0, .upvote_received, 99, 99, 0, false⟩ :
          RecordRequest).authorized = true
        ∧ (⟨1, 0, .upvote_received, 3, 1, 0⟩ : PointEvent).pc_delta
          = (⟨1, 0, .upvote_received, 99, 99, 0, false⟩ :
              RecordRequest).pc_delta
        ∧ (⟨1, 0, .upvote_received, 3, 1, 0⟩ : PointEvent).pcon_delta
          = (⟨1, 0, .upvote_received, 99, 99, 0, false⟩ :
              RecordRequest).pcon_delta) :=
  deltas_server_side EngineState.empty
    ⟨1, 0, .upvote_received, 99, 99, 0, false⟩
    ⟨1, 0, .upvote_received, 3, 1, 0⟩ (by decide)

/-- A bot-creation payload as assembled by `AdminPanel.handleSubmit` in
App.js and sent by the bot-creation script: it carries caller-chosen
points and a caller-chosen rank string. -/
structure BotRequest where
  username : String
  email : String
  pc_points : Int
  pcon_points : Int
  rank : String
deriving DecidableEq, Repr

/-- A stored user profile as created by the admin bots endpoint. -/
structure StoredUser where
  pc_points : Int
  pcon_points : Int
  rank : String
deriving DecidableEq, Repr

/-- From `AdminPanel.handleSubmit` (App.js) and the bot-creation script
(`CRIANDO 5 BOTS`): the admin bots endpoint receives the cleaned payload
and stores the caller-supplied points and rank string verbatim, with no
re-derivation of the rank from the totals. -/
def createBot (req : BotRequest) : StoredUser :=
  ⟨req.pc_points, req.pcon_points, req.rank⟩

/-- The second bot created by the script: 1200 PC, 600 PCon,
rank "Avançado". -/
def webdevBot : BotRequest :=
  ⟨"WebDev_Expert", "webdev@bots.com", 1200, 600, "Avançado"⟩

/-- Counterexample to C6 as stated.  The bot-creation path of the
repository stores a caller-supplied rank: the bot created with totals
(1200, 600) and rank "Avançado" has a stored rank differing from the
value the Rank Calculator produces from those totals ("Lenda"); the
stored string "Avançado" is not even a tier of the table. -/
theorem rank_consistency_counterexample :
    (createBot webdevBot).rank
      ≠ calcRank (createBot webdevBot).pc_points
          (createBot webdevBot).pcon_points := by
  decide

/-- The statistics view served for a user, rank included. -/
structure UserStats where
  pc_points : Int
  pcon_points : Int
  rank : String
deriving DecidableEq, Repr

/-- Modelled from the spec: `get(user_id)` / `getUserStats(user_id)`
returns the current aggregate with the rank freshly derived from the
current totals before being returned (spec sections 4.2 and 6). -/
def getStats (s : EngineState) (u : Nat) : UserStats :=
  ⟨(getAgg s.aggs u).pc_points, (getAgg s.aggs u).pcon_points,
   calcRank (getAgg s.aggs u).pc_points (getAgg s.aggs u).pcon_points⟩

/-- C6 (amended).  Within the point engine, the rank served by
`get(user_id)` is always the value the Rank Calculator produces from the
user's current totals, in every engine state — in particular after any
sequence of recorded events — and is therefore never stale; the admin
bot-creation path, by contrast, stores an arbitrary caller-supplied rank
that need not agree with the Rank Calculator. -/
theorem getStats_rank_fresh (s : EngineState) (u : Nat)
    (rs : List RecordRequest) :
    (getStats (recordAll s rs) u).rank
      = calcRank (getAgg (recordAll s rs).aggs u).pc_points
          (getAgg (recordAll s rs).aggs u).pcon_points := rfl

theorem foldClamp_all_eq_three (ds : List Int) :
    ∀ init : Int, 0 ≤ init → (∀ d ∈ ds, d = 3) →
    foldClamp init ds = init + 3 * ds.length := by
  induction ds with
  | nil => intro init _ _; simp [foldClamp]
  | cons d ds ih =>
    intro init hinit hall
    have hd : d = 3 := hall d (List.mem_cons_self d ds)
    have hstep : foldClamp init (d :: ds) = foldClamp (max (init + d) 0) ds :=
      rfl
    rw [hstep, hd]
    have hmax : max (init + 3) 0 = init + 3 := max_eq_left (by omega)
    rw [hmax, ih (init + 3) (by omega)
      (fun x hx => hall x (List.mem_cons_of_mem d hx))]
    simp [List.length_cons]
    ring

/-- C7.  Concurrent `upvote_received` events for one user are serialized
per user, so the overall effect is that of recording them in some order;
for every such order of pairwise-distinct fresh upvote events, every
event's +3 PC is reflected and the final `pc_points` is the initial total
plus exactly 3 per event — no update is lost.  Instantiated at 100 events
this is an increase of exactly 300. -/
theorem upvotes_no_lost_updates (u : Nat) (rs : List RecordRequest)
    (s : EngineState)
    (hu : ∀ r ∈ rs, r.user_id = u)
    (hfresh : ∀ r ∈ rs,
      s.ledger.find? (fun e => e.event_id == r.event_id) = none)
    (hnodup : (rs.map (fun r => r.event_id)).Nodup)
    (htype : ∀ r ∈ rs, r.event_type = .upvote_received)
    (hpc0 : 0 ≤ (getAgg s.aggs u).pc_points) :
    (getAgg (recordAll s rs).aggs u).pc_points
      = (getAgg s.aggs u).pc_points + 3 * rs.length := by
  have hok : ∀ r ∈ rs,
      (r.event_type == .admin_adjustment && !r.authorized) = false := by
    intro r hr
    rw [htype r hr]
    rfl
  have h := (conservation_core u rs s hu hfresh hnodup hok).1
  rw [h]
  have hall : ∀ d ∈ rs.map (fun r => (computeDeltas r).1), d = 3 := by
    intro d hd
    rcases List.mem_map.mp hd with ⟨r, hr, hdr⟩
    rw [← hdr]
    simp [computeDeltas, htype r hr, policyPC]
  rw [foldClamp_all_eq_three _ _ hpc0 hall]
  simp

/-- One hundred upvote events with distinct event ids for user 0. -/
def upvoteBurst : List RecordRequest :=
  (List.range 100).map (fun i => ⟨i, 0, .upvote_received, 0, 0, 0, false⟩)

/-- Witness for C7: the 100-event burst of Scenario D, recorded for a
user starting at zero, ends with `pc_points` increased by exactly
3 * 100 = 300. -/
theorem upvotes_no_lost_updates_witness :
    upvoteBurst.length = 100 ∧
    (getAgg (recordAll EngineState.empty upvoteBurst).aggs 0).pc_points
      = (getAgg EngineState.empty.aggs 0).pc_points + 3 * upvoteBurst.length :=
  ⟨by decide,
   upvotes_no_lost_updates 0 upvoteBurst EngineState.empty
     (by decide) (by decide) (by decide) (by decide) (by decide)⟩

/-- Ledger-derived action counters used by the count-based achievement
predicates (spec section 4.4). -/
structure Counters where
  questions : Nat
  answers : Nat
  accepted : Nat
deriving DecidableEq, Repr

/-- The polymorphic achievement predicate abstraction (spec section 9):
threshold-based conditions over the aggregate and count-based conditions
over the ledger-derived counters. -/
inductive AchPred where
  | pcAtLeast (n : Int)
  | pconAtLeast (n : Int)
  | firstQuestion
  | firstAnswer
  | answerAccepted
deriving DecidableEq, Repr

/-- Evaluate an achievement predicate against the current aggregate and
counters. -/
def evalPred (p : AchPred) (a : Aggregate) (c : Counters) : Bool :=
  match p with
  | .pcAtLeast n => n ≤ a.pc_points
  | .pconAtLeast n => n ≤ a.pcon_points
  | .firstQuestion => 1 ≤ c.questions
  | .firstAnswer => 1 ≤ c.answers
  | .answerAccepted => 1 ≤ c.accepted

/-- The achievement catalog from `backend/README.md`
(Conquistas Disponíveis): first question, first answer, accepted answer,
100/500/1000 PC, 50/200 PCon. -/
def achievementCatalog : List (Nat × AchPred) :=
  [(1, .firstQuestion), (2, .firstAnswer), (3, .answerAccepted),
   (4, .pcAtLeast 100), (5, .pcAtLeast 500), (6, .pcAtLeast 1000),
   (7, .pconAtLeast 50), (8, .pconAtLeast 200)]

/-- An Achievement Unlock record (spec section 3). -/
structure Unlock where
  user_id : Nat
  achievement_id : Nat
deriving DecidableEq, Repr

/-- Modelled from the spec: `evaluate(user_id)` checks every catalog
entry against the current aggregate and counters, and inserts an Unlock
only on condition that no Unlock for the pair (user, achievement) already
exists (spec section 4.4, insert-if-absent). -/
def evaluate (unlocks : List Unlock) (u : Nat) (a : Aggregate)
    (c : Counters) : List Unlock :=
  achievementCatalog.foldl
    (fun acc ach =>
      if evalPred ach.2 a c && !acc.contains ⟨u, ach.1⟩ then
        acc ++ [⟨u, ach.1⟩]
      else acc)
    unlocks

/-- At most one Unlock record per (user, achievement) pair exists. -/
def atMostOnce (l : List Unlock) : Prop :=
  ∀ u aid : Nat, l.count (⟨u, aid⟩ : Unlock) ≤ 1

/-- Run a sequence of evaluations, each against the aggregate and
counters observed for some user at that moment. -/
def runEvaluations (unlocks : List Unlock)
    (runs : List (Nat × Aggregate × Counters)) : List Unlock :=
  runs.foldl (fun acc run => evaluate acc run.1 run.2.1 run.2.2) unlocks

theorem foldl_preserves {α β : Type} (P : α → Prop) (f : α → β → α)
    (hf : ∀ acc b, P acc → P (f acc b)) :
    ∀ (l : List β) (init : α), P init → P (l.foldl f init) := by
  intro l
  induction l with
  | nil => intro init h; exact h
  | cons b l ih =>
    intro init h
    exact ih (f init b) (hf init b h)

theorem evaluate_step_preserves (u : Nat) (a : Aggregate) (c : Counters)
    (acc : List Unlock) (ach : Nat × AchPred) (h : atMostOnce acc) :
    atMostOnce
      (if evalPred ach.2 a c && !acc.contains ⟨u, ach.1⟩ then
        acc ++ [⟨u, ach.1⟩]
      else acc) := by
  by_cases hc : (evalPred ach.2 a c && !acc.contains ⟨u, ach.1⟩) = true
  · rw [if_pos hc]
    intro u' aid'
    rw [List.count_append]
    by_cases hm : (⟨u', aid'⟩ : Unlock) = ⟨u, ach.1⟩
    · have hnotmem : (⟨u, ach.1⟩ : Unlock) ∉ acc := by
        simp only [Bool.and_eq_true, Bool.not_eq_true'] at hc
        have hnc := hc.2
        intro hmem
        rw [Bool.eq_false_iff] at hnc
        exact hnc (List.elem_eq_true_of_mem hmem)
      have h0 : acc.count (⟨u', aid'⟩ : Unlock) = 0 := by
        rw [List.count_eq_zero, hm]
        exact hnotmem
      rw [h0, hm]
      simp
    · have h1 : List.count (⟨u', aid'⟩ : Unlock) [⟨u, ach.1⟩] = 0 := by
        rw [List.count_eq_zero]
        intro hmem
        rw [List.mem_singleton] at hmem
        exact hm hmem
      rw [h1]
      simpa using h u' aid'
  · rw [if_neg hc]
    exact h

theorem evaluate_preserves (u : Nat) (a : Aggregate) (c : Counters)
    (unlocks : List Unlock) (h : atMostOnce unlocks) :
    atMostOnce (evaluate unlocks u a c) :=
  foldl_preserves atMostOnce _
    (fun acc ach hacc => evaluate_step_preserves u a c acc ach hacc)
    achievementCatalog unlocks h

/-- C8.  Starting from the empty Unlock store, no matter how many times
and for which aggregate/counter states `evaluate` runs — including
redundant runs on unchanged state, which is how concurrent invocations
serialize — at most one Achievement Unlock ever exists per
(user, achievement) pair. -/
theorem achievement_at_most_once
    (runs : List (Nat × Aggregate × Counters)) :
    atMostOnce (runEvaluations [] runs) := by
  refine foldl_preserves atMostOnce _ ?_ runs [] ?_
  · intro acc run hacc
    exact evaluate_preserves run.1 run.2.1 run.2.2 acc hacc
  · intro u aid
    simp

end Gamify

namespace Frontend

/-- Check that the second character list starts with the first. -/
def startsWithChars : List Char → List Char → Bool
  | [], _ => true
  | _ :: _, [] => false
  | a :: as, b :: bs => a == b && startsWithChars as bs

/-- Check that the first character list occurs contiguously inside the
second. -/
def occursIn (needle : List Char) : List Char → Bool
  | [] => startsWithChars needle []
  | c :: cs => startsWithChars needle (c :: cs) || occursIn needle cs

/-- JS `s.includes(needle)` on Lean strings: substring containment. -/
def strIncludes (s needle : String) : Bool :=
  occursIn needle.data s.data

/-- From App.js: the hardcoded API base URL constant
`const API = 'http://localhost:8030/api'`; `config.js` forces the same
URL. -/
def API : String := "http://localhost:8030/api"

/-- Outcome of the module-init URL check: either the URL is returned, or
the guard fired (alert plus thrown Error). -/
inductive ApiInit where
  | ok (url : String)
  | failed (msg : String)
deriving DecidableEq, Repr

/-- From App.js module init and `config.js` `getApiUrl`: if the URL
contains the wrong port "8050" or "8001" the guard alerts and throws,
otherwise the URL is returned. -/
def getApiUrl : ApiInit :=
  if strIncludes API "8050" || strIncludes API "8001" then
    .failed "Invalid API URL configuration - should be 8030"
  else
    .ok API

/-- C9.  The hardcoded API base URL contains neither "8050" nor "8001",
so the wrong-port guard's throw/alert branch is unreachable and the check
returns the 8030 URL without throwing. -/
theorem api_guard_unreachable :
    strIncludes API "8050" = false ∧ strIncludes API "8001" = false ∧
      getApiUrl = .ok "http://localhost:8030/api" := by
  decide

/-- The registration form state of the Register component in App.js. -/
structure RegisterForm where
  username : String
  email : String
  password : String
  confirmPassword : String
deriving DecidableEq, Repr

/-- The JSON body of the POST to `/auth/register` issued by
`Register.handleSubmit`. -/
structure RegisterPost where
  username : String
  email : String
  password : String
deriving DecidableEq, Repr

/-- Observable outcome of one run of `Register.handleSubmit`: the error
message set (if any), the network request issued (if any), and the final
loading flag. -/
structure RegisterOutcome where
  error : Option String
  posted : Option RegisterPost
  loading : Bool
deriving DecidableEq, Repr

/-- From `Register.handleSubmit` (App.js): if `password` differs from
`confirmPassword` the handler sets the error message
"Senhas não coincidem", clears the loading flag and returns without
issuing the POST; otherwise it posts username, email and password to
`/auth/register`. -/
def registerHandleSubmit (fd : RegisterForm) : RegisterOutcome :=
  if fd.password ≠ fd.confirmPassword then
    ⟨some "Senhas não coincidem", none, false⟩
  else
    ⟨none, some ⟨fd.username, fd.email, fd.password⟩, false⟩

/-- C10.  For every registration form submission where the password and
its confirmation differ, the handler sets the error message
"Senhas não coincidem" and no POST to `/auth/register` is issued. -/
theorem register_mismatch_no_post (fd : RegisterForm)
    (h : fd.password ≠ fd.confirmPassword) :
    registerHandleSubmit fd
      = ⟨some "Senhas não coincidem", none, false⟩ := by
  simp [registerHandleSubmit, h]

/-- Witness for C10 at a concrete mismatching form. -/
theorem register_mismatch_no_post_witness :
    registerHandleSubmit ⟨"alice", "alice@mail.com", "secret1", "secret2"⟩
      = ⟨some "Senhas não coincidem", none, false⟩ :=
  register_mismatch_no_post
    ⟨"alice", "alice@mail.com", "secret1", "secret2"⟩ (by decide)

end Frontend
